import Mathlib

/-!
Shallow embedding of the Nimbella serverless deployment core of this
repository (package `commands`, file `nimbella.go`).

The data shapes (`godo.AppServerlessSpec`, `godo.GitHubSourceSpec`,
`godo.LocalSourceSpec`, `godo.AppStaticSiteSpec`,
`godo.AppVariableDefinition`) come from the external `godo` library; only
the fields the embedded functions read or write are modelled.  The scope
and type tags are string-typed in `godo`, with constants
`AppVariableScope_BuildTime = "BUILD_TIME"` and
`AppVariableType_General = "GENERAL"`.

The external tool invocation (`runNim`, which resolves the `nim`
executable path and runs it, returning its combined output as a string
together with an error status) is modelled as an explicit function
parameter `nim : List String → String × Option NimError`: given the
argument vector it returns the combined output text and the error status
of the process run.  Functions that may invoke the tool additionally
return the list of argument vectors they passed to the tool, so that
claims about which invocations occur are statable.
-/

namespace Nimbella

/-- Model of `godo.GitHubSourceSpec`: the fields read by `githubProject`. -/
structure GitHubSourceSpec where
  Repo : String
  Branch : String
  DeployOnPush : Bool
deriving DecidableEq, Repr

/-- Model of `godo.LocalSourceSpec`: the field read by `localProject`. -/
structure LocalSourceSpec where
  Path : String
deriving DecidableEq, Repr

/-- Model of `godo.AppServerlessSpec`: the fields read by
`convertToNimProject`.  A `nil` pointer in Go is `none` here. -/
structure AppServerlessSpec where
  Local : Option LocalSourceSpec
  GitHub : Option GitHubSourceSpec
  SourceDir : String
deriving DecidableEq, Repr

/-- Model of `godo.AppVariableDefinition`: key, value, scope tag, type tag.
Scope and type are string-typed in `godo`.  The Go field `Type` is named
`type` here because `Type` is reserved in Lean. -/
structure AppVariableDefinition where
  Key : String
  Value : String
  Scope : String
  type : String
deriving DecidableEq, Repr

/-- Value of `godo.AppVariableScope_BuildTime`. -/
def AppVariableScope_BuildTime : String := "BUILD_TIME"

/-- Value of `godo.AppVariableType_General`. -/
def AppVariableType_General : String := "GENERAL"

/-- Model of `godo.AppStaticSiteSpec`: the env collection `addURLToSite` rewrites,
plus a representative field untouched by this core. -/
structure AppStaticSiteSpec where
  Name : String
  Envs : List AppVariableDefinition
deriving DecidableEq, Repr

/-- The distinct error values the embedded functions produce.  Each
constructor stands for one `errors.New` site of `nimbella.go` (its exact
message is `NimError.message`); `processFailure` stands for an error
returned by the external process run itself. -/
inductive NimError where
  | missingSourceSpec
  | conflictingSourceSpec
  | unsupportedFeature
  | missingRequiredRepo
  | missingRequiredLocalSource
  | conflictingVariable
  | processFailure (msg : String)
deriving DecidableEq, Repr

/-- The exact Go error message of each error value. -/
def NimError.message : NimError → String
  | .missingSourceSpec =>
      "one of `Local` or `GitHub` must appear in a `serverless` spec"
  | .conflictingSourceSpec =>
      "you cannot specify both `Local` and `GitHub` in a `serverless` spec"
  | .unsupportedFeature =>
      "the `deploy on push` feature is not currently supported for serverless"
  | .missingRequiredRepo =>
      "The `repo` field is required"
  | .missingRequiredLocalSource =>
      "If `local` is used, either the path or the sourceDir or both must be specified"
  | .conflictingVariable =>
      "Unable to add serverless URL to static site because the variable has a conflicting use"
  | .processFailure msg => msg

/-- The spec groups `missingRequiredRepo` and `missingRequiredLocalSource`
under the single conceptual kind `MissingRequiredField`. -/
def NimError.isMissingRequiredField : NimError → Bool
  | .missingRequiredRepo => true
  | .missingRequiredLocalSource => true
  | _ => false

/-- Go function `githubProject`: convert a GitHub source spec plus source directory to
a `nim project deploy` argument. -/
def githubProject (spec : GitHubSourceSpec) (sourceDir : String) :
    Except NimError String :=
  if spec.DeployOnPush then
    .error .unsupportedFeature
  else if spec.Repo = "" then
    .error .missingRequiredRepo
  else
    let project := "github:" ++ spec.Repo
    let project := if sourceDir ≠ "" then project ++ "/" ++ sourceDir else project
    let project := if spec.Branch ≠ "" then project ++ "#" ++ spec.Branch else project
    .ok project

/-- Go function `localProject`: convert a local source spec plus source directory to a
`nim project deploy` argument. -/
def localProject (spec : LocalSourceSpec) (sourceDir : String) :
    Except NimError String :=
  if spec.Path ≠ "" then
    if sourceDir ≠ "" then
      .ok (spec.Path ++ "/" ++ sourceDir)
    else
      .ok spec.Path
  else if sourceDir ≠ "" then
    .ok sourceDir
  else
    .error .missingRequiredLocalSource

/-- Go function `convertToNimProject`: dispatch on which of `Local`/`GitHub` is set. -/
def convertToNimProject (spec : AppServerlessSpec) : Except NimError String :=
  match spec.Local with
  | none =>
    match spec.GitHub with
    | none => .error .missingSourceSpec
    | some gh => githubProject gh spec.SourceDir
  | some l =>
    match spec.GitHub with
    | some _ => .error .conflictingSourceSpec
    | none => localProject l spec.SourceDir

/-- The loop of `deployServerless` that converts every component in input
order, stopping at the first failure. -/
def buildNimProjects : List AppServerlessSpec → Except NimError (List String)
  | [] => .ok []
  | p :: ps =>
    match convertToNimProject p with
    | .error e => .error e
    | .ok np =>
      match buildNimProjects ps with
      | .error e => .error e
      | .ok nps => .ok (np :: nps)

/-- Go function `deployServerless`: build a project reference for every component,
then run `nim project deploy --exclude web <refs...>`.  The first
component of the result is the Go return value `(string, error)`; the
second records the argument vectors passed to the external tool. -/
def deployServerless (nim : List String → String × Option NimError)
    (projects : List AppServerlessSpec) :
    (String × Option NimError) × List (List String) :=
  match buildNimProjects projects with
  | .error e => (("", some e), [])
  | .ok nimProjects =>
    let args := ["project", "deploy", "--exclude", "web"] ++ nimProjects
    (nim args, [args])

/-- Go function `getServerlessURL`: run `nim auth current --web` and return its
combined output verbatim as the URL. -/
def getServerlessURL (nim : List String → String × Option NimError) :
    String × Option NimError :=
  nim ["auth", "current", "--web"]

/-- The scan loop of `addURLToSite` over `envs`, looking for an existing
`SERVERLESS_URL` key: equivalent to a `List.any` membership test, since
the Go loop returns the collection unchanged either way. -/
def hasServerlessURL (envs : List AppVariableDefinition) : Bool :=
  envs.any (fun env => env.Key == "SERVERLESS_URL")

/-- The `newEnv` value built by `addURLToSite`. -/
def newEnv (url : String) : AppVariableDefinition :=
  ⟨"SERVERLESS_URL", url, AppVariableScope_BuildTime, AppVariableType_General⟩

/-- Go function `addURLToSite`: fail if a `SERVERLESS_URL` variable already exists
(returning the env collection unchanged, as the Go function does),
otherwise append the new variable. -/
def addURLToSite (url : String) (envs : List AppVariableDefinition) :
    List AppVariableDefinition × Option NimError :=
  if hasServerlessURL envs then
    (envs, some .conflictingVariable)
  else
    (envs ++ [newEnv url], none)

/-- The per-site loop of `addServerlessURLToStaticSites`: each site's env
collection is replaced by the result of `addURLToSite` (in Go this is the
in-place assignment `site.Envs = ...`), and the loop stops at the first
error, leaving later sites untouched. -/
def addURLLoop (url : String) :
    List AppStaticSiteSpec → List AppStaticSiteSpec × Option NimError
  | [] => ([], none)
  | site :: rest =>
    let r := addURLToSite url site.Envs
    let site2 : AppStaticSiteSpec := { site with Envs := r.1 }
    match r.2 with
    | some e => (site2 :: rest, some e)
    | none =>
      let r2 := addURLLoop url rest
      (site2 :: r2.1, r2.2)

/-- Go function `addServerlessURLToStaticSites`: fetch the serverless URL once, then
add it to every static site.  The first component is the (possibly
mutated) site list together with the Go error return; the second records
the argument vectors passed to the external tool. -/
def addServerlessURLToStaticSites
    (nim : List String → String × Option NimError)
    (sites : List AppStaticSiteSpec) :
    (List AppStaticSiteSpec × Option NimError) × List (List String) :=
  let r := getServerlessURL nim
  match r.2 with
  | some e => ((sites, some e), [["auth", "current", "--web"]])
  | none => (addURLLoop r.1 sites, [["auth", "current", "--web"]])

/-- Modelled from the spec: the spec's notion of the tool output "trimmed
of any framing the tool might add (such as surrounding whitespace or a
trailing newline)" — drop leading and trailing whitespace characters.  No
trimming function exists in the repository's code; this definition exists
only to state the spec's claim about trimming against the code. -/
def specTrimmed (s : String) : String :=
  ⟨((s.data.dropWhile Char.isWhitespace).reverse.dropWhile
      Char.isWhitespace).reverse⟩

/-- A concrete external tool for witnesses: every invocation succeeds with
empty output. -/
def nimStub : List String → String × Option NimError :=
  fun _ => ("", none)

/-- A concrete external tool for witnesses: every invocation succeeds and
its combined output carries a trailing newline, as a real process's
standard output typically does. -/
def nimNl : List String → String × Option NimError :=
  fun _ => ("http://example.com\n", none)

end Nimbella

namespace Nimbella

/-! Helper lemmas. -/

/-- Eta for the record update performed by the injector loop. -/
theorem site_eta (s : AppStaticSiteSpec) :
    ({ s with Envs := s.Envs } : AppStaticSiteSpec) = s := rfl

/-- When `Local` is unset and `GitHub` is set, the builder delegates to
`githubProject`. -/
theorem convertToNimProject_github (spec : AppServerlessSpec)
    (g : GitHubSourceSpec) (hL : spec.Local = none)
    (hG : spec.GitHub = some g) :
    convertToNimProject spec = githubProject g spec.SourceDir := by
  simp [convertToNimProject, hL, hG]

/-- When `Local` is set and `GitHub` is unset, the builder delegates to
`localProject`. -/
theorem convertToNimProject_local (spec : AppServerlessSpec)
    (l : LocalSourceSpec) (hL : spec.Local = some l)
    (hG : spec.GitHub = none) :
    convertToNimProject spec = localProject l spec.SourceDir := by
  simp [convertToNimProject, hL, hG]

/-! Claim theorems. -/

/-- C1: for every serverless spec with `GitHub` set, `Local` unset,
`DeployOnPush` false and a non-empty repository identifier, the builder
succeeds and returns `"github:" ++ Repo`, followed by `"/" ++ SourceDir`
exactly when `SourceDir` is non-empty, followed by `"#" ++ Branch` exactly
when `Branch` is non-empty, with the sub-directory segment preceding the
branch segment. -/
theorem C1_github_reference (spec : AppServerlessSpec)
    (g : GitHubSourceSpec) (hG : spec.GitHub = some g)
    (hL : spec.Local = none) (hPush : g.DeployOnPush = false)
    (hRepo : g.Repo ≠ "") :
    convertToNimProject spec =
      .ok ("github:" ++ g.Repo ++
        (if spec.SourceDir ≠ "" then "/" ++ spec.SourceDir else "") ++
        (if g.Branch ≠ "" then "#" ++ g.Branch else "")) := by
  rw [convertToNimProject_github spec g hL hG, githubProject]
  by_cases hsd : spec.SourceDir = "" <;> by_cases hb : g.Branch = "" <;>
    simp [hPush, hRepo, hsd, hb, String.append_assoc, String.append_empty]

/-- C1 witness: the spec's worked example
`{Repo: "org/repo", Branch: "main", SourceDir: "src"}`. -/
theorem C1_witness :
    convertToNimProject ⟨none, some ⟨"org/repo", "main", false⟩, "src"⟩ =
      .ok "github:org/repo/src#main" :=
  (C1_github_reference ⟨none, some ⟨"org/repo", "main", false⟩, "src"⟩
    ⟨"org/repo", "main", false⟩ rfl rfl rfl (by decide)).trans rfl

/-- C2: for every serverless spec with `Local` set and `GitHub` unset, the
builder returns `Path ++ "/" ++ SourceDir` when both are non-empty, `Path`
alone when only `Path` is non-empty, `SourceDir` alone when `Path` is
empty and `SourceDir` is non-empty, and fails with the missing-required-
field error when both are empty. -/
theorem C2_local_reference (spec : AppServerlessSpec)
    (l : LocalSourceSpec) (hL : spec.Local = some l)
    (hG : spec.GitHub = none) :
    (l.Path ≠ "" → spec.SourceDir ≠ "" →
      convertToNimProject spec = .ok (l.Path ++ "/" ++ spec.SourceDir)) ∧
    (l.Path ≠ "" → spec.SourceDir = "" →
      convertToNimProject spec = .ok l.Path) ∧
    (l.Path = "" → spec.SourceDir ≠ "" →
      convertToNimProject spec = .ok spec.SourceDir) ∧
    (l.Path = "" → spec.SourceDir = "" →
      convertToNimProject spec = .error .missingRequiredLocalSource ∧
        NimError.missingRequiredLocalSource.isMissingRequiredField = true) := by
  rw [convertToNimProject_local spec l hL hG]
  refine ⟨?_, ?_, ?_, ?_⟩ <;> intro h1 h2 <;>
    simp [localProject, h1, h2, NimError.isMissingRequiredField]

/-- C2 witness: the spec's worked example `{Path: "/a/b"}`, SourceDir
`"sub"`, plus the failing both-empty case. -/
theorem C2_witness :
    convertToNimProject ⟨some ⟨"/a/b"⟩, none, "sub"⟩ = .ok "/a/b/sub" ∧
    convertToNimProject ⟨some ⟨""⟩, none, ""⟩ =
      .error .missingRequiredLocalSource :=
  ⟨((C2_local_reference ⟨some ⟨"/a/b"⟩, none, "sub"⟩ ⟨"/a/b"⟩ rfl rfl).1
      (by decide) (by decide)).trans rfl,
   ((C2_local_reference ⟨some ⟨""⟩, none, ""⟩ ⟨""⟩ rfl rfl).2.2.2
      rfl rfl).1⟩

/-- C3: the builder fails with `missingSourceSpec` when neither source is
set, fails with `conflictingSourceSpec` when both are set, and proceeds to
build a reference (delegating to the GitHub or local builder) exactly when
one of the two is set. -/
theorem C3_source_dispatch (spec : AppServerlessSpec) :
    (spec.Local = none → spec.GitHub = none →
      convertToNimProject spec = .error .missingSourceSpec) ∧
    (∀ l g, spec.Local = some l → spec.GitHub = some g →
      convertToNimProject spec = .error .conflictingSourceSpec) ∧
    (∀ g, spec.Local = none → spec.GitHub = some g →
      convertToNimProject spec = githubProject g spec.SourceDir) ∧
    (∀ l, spec.Local = some l → spec.GitHub = none →
      convertToNimProject spec = localProject l spec.SourceDir) := by
  refine ⟨?_, ?_, ?_, ?_⟩
  · intro h1 h2
    simp [convertToNimProject, h1, h2]
  · intro l g h1 h2
    simp [convertToNimProject, h1, h2]
  · intro g h1 h2
    exact convertToNimProject_github spec g h1 h2
  · intro l h1 h2
    exact convertToNimProject_local spec l h1 h2

/-- C3 witness: neither-set and both-set at concrete specs. -/
theorem C3_witness :
    convertToNimProject ⟨none, none, ""⟩ = .error .missingSourceSpec ∧
    convertToNimProject ⟨some ⟨"p"⟩, some ⟨"r", "", false⟩, ""⟩ =
      .error .conflictingSourceSpec :=
  ⟨(C3_source_dispatch ⟨none, none, ""⟩).1 rfl rfl,
   (C3_source_dispatch ⟨some ⟨"p"⟩, some ⟨"r", "", false⟩, ""⟩).2.1
     ⟨"p"⟩ ⟨"r", "", false⟩ rfl rfl⟩

/-- C4: with `GitHub` set, `Local` unset and `DeployOnPush` true, the
builder fails with `unsupportedFeature` regardless of every other field,
and this error is not of the missing-required-field kind. -/
theorem C4_deploy_on_push (spec : AppServerlessSpec)
    (g : GitHubSourceSpec) (hG : spec.GitHub = some g)
    (hL : spec.Local = none) (hPush : g.DeployOnPush = true) :
    convertToNimProject spec = .error .unsupportedFeature ∧
      NimError.unsupportedFeature.isMissingRequiredField = false := by
  constructor
  · rw [convertToNimProject_github spec g hL hG, githubProject]
    simp [hPush]
  · rfl

/-- C4 witness: `DeployOnPush` true with the repository identifier also
empty still yields `unsupportedFeature`. -/
theorem C4_witness :
    convertToNimProject ⟨none, some ⟨"", "", true⟩, ""⟩ =
      .error .unsupportedFeature :=
  (C4_deploy_on_push ⟨none, some ⟨"", "", true⟩, ""⟩ ⟨"", "", true⟩
    rfl rfl rfl).1

/-- The conversion loop propagates the error of the first failing
component when every earlier component converts successfully. -/
theorem buildNimProjects_error_of_first (pre : List AppServerlessSpec)
    (p : AppServerlessSpec) (post : List AppServerlessSpec) (e : NimError)
    (hpre : ∀ q ∈ pre, ∃ r, convertToNimProject q = .ok r)
    (hp : convertToNimProject p = .error e) :
    buildNimProjects (pre ++ p :: post) = .error e := by
  induction pre with
  | nil => simp [buildNimProjects, hp]
  | cons q qs ih =>
    obtain ⟨r, hr⟩ := hpre q (by simp)
    have hrest := ih (fun x hx => hpre x (by simp [hx]))
    simp [buildNimProjects, hr, hrest]

/-- A successful conversion loop converts every component, in input
order. -/
theorem buildNimProjects_ok_spec (projects : List AppServerlessSpec)
    (refs : List String) (h : buildNimProjects projects = .ok refs) :
    refs.length = projects.length ∧
    ∀ i (hi : i < projects.length) (hi2 : i < refs.length),
      convertToNimProject (projects.get ⟨i, hi⟩) =
        .ok (refs.get ⟨i, hi2⟩) := by
  induction projects generalizing refs with
  | nil =>
    simp [buildNimProjects] at h
    subst h
    exact ⟨rfl, fun i hi => absurd hi (Nat.not_lt_zero i)⟩
  | cons p ps ih =>
    cases hc : convertToNimProject p with
    | error e => simp [buildNimProjects, hc] at h
    | ok np =>
      cases hr : buildNimProjects ps with
      | error e => simp [buildNimProjects, hc, hr] at h
      | ok nps =>
        simp [buildNimProjects, hc, hr] at h
        subst h
        obtain ⟨hlen, hidx⟩ := ih nps hr
        refine ⟨by simp [hlen], ?_⟩
        intro i hi hi2
        match i with
        | 0 => simpa using hc
        | Nat.succ j =>
          simpa using hidx j (by simpa using hi) (by simpa using hi2)

/-- C5: when some component fails translation and every earlier component
succeeds, the orchestrator performs no tool invocation and returns the
first failing component's builder error with an empty output string. -/
theorem C5_fail_fast (nim : List String → String × Option NimError)
    (pre : List AppServerlessSpec) (p : AppServerlessSpec)
    (post : List AppServerlessSpec) (e : NimError)
    (hpre : ∀ q ∈ pre, ∃ r, convertToNimProject q = .ok r)
    (hp : convertToNimProject p = .error e) :
    deployServerless nim (pre ++ p :: post) = (("", some e), []) := by
  simp [deployServerless,
    buildNimProjects_error_of_first pre p post e hpre hp]

/-- C5 witness: three components whose second fails; no invocation of
`nimStub` is recorded and the second component's error is returned. -/
theorem C5_witness :
    deployServerless nimStub
      ([⟨some ⟨"/a"⟩, none, ""⟩] ++ ⟨none, none, ""⟩ ::
        [⟨some ⟨"/b"⟩, none, ""⟩]) =
      (("", some .missingSourceSpec), []) := by
  refine C5_fail_fast nimStub [⟨some ⟨"/a"⟩, none, ""⟩] ⟨none, none, ""⟩
    [⟨some ⟨"/b"⟩, none, ""⟩] .missingSourceSpec ?_ rfl
  intro q hq
  rw [List.mem_singleton.mp hq]
  exact ⟨"/a", rfl⟩

/-- C6: when every component translates successfully, the orchestrator
issues exactly one tool invocation, whose argument vector is the fixed
preamble `project deploy --exclude web` followed by the components'
references in input order; the tool's result is returned as is. -/
theorem C6_single_invocation (nim : List String → String × Option NimError)
    (projects : List AppServerlessSpec) (refs : List String)
    (h : buildNimProjects projects = .ok refs) :
    deployServerless nim projects =
      (nim (["project", "deploy", "--exclude", "web"] ++ refs),
        [["project", "deploy", "--exclude", "web"] ++ refs]) ∧
    refs.length = projects.length ∧
    ∀ i (hi : i < projects.length) (hi2 : i < refs.length),
      convertToNimProject (projects.get ⟨i, hi⟩) =
        .ok (refs.get ⟨i, hi2⟩) := by
  refine ⟨?_, buildNimProjects_ok_spec projects refs h⟩
  simp [deployServerless, h]

/-- C6 witness: a local and a GitHub component produce a single invocation
carrying both references after the fixed preamble. -/
theorem C6_witness :
    deployServerless nimStub
      [⟨some ⟨"/a"⟩, none, ""⟩, ⟨none, some ⟨"org/repo", "", false⟩, ""⟩] =
      (nimStub ["project", "deploy", "--exclude", "web", "/a",
        "github:org/repo"],
       [["project", "deploy", "--exclude", "web", "/a",
        "github:org/repo"]]) :=
  ((C6_single_invocation nimStub
      [⟨some ⟨"/a"⟩, none, ""⟩, ⟨none, some ⟨"org/repo", "", false⟩, ""⟩]
      ["/a", "github:org/repo"] rfl).1).trans rfl

/-- A successful injector loop appends the new variable to every site and
changes nothing else. -/
theorem addURLLoop_ok (url : String) (sites : List AppStaticSiteSpec)
    (h : (addURLLoop url sites).2 = none) :
    (addURLLoop url sites).1 =
      sites.map (fun s => { s with Envs := s.Envs ++ [newEnv url] }) := by
  induction sites with
  | nil => simp [addURLLoop]
  | cons s rest ih =>
    by_cases hk : hasServerlessURL s.Envs
    · simp [addURLLoop, addURLToSite, hk] at h
    · simp only [addURLLoop, addURLToSite, hk, if_neg, Bool.false_eq_true,
        not_false_eq_true, if_false] at h ⊢
      simp [ih h]

/-- If the site at index `i` already has the key, the injector loop fails
with the conflict error and returns that site unchanged at index `i`. -/
theorem addURLLoop_conflict_at (url : String) :
    ∀ (sites : List AppStaticSiteSpec) (i : Nat) (s : AppStaticSiteSpec),
      sites.get? i = some s → hasServerlessURL s.Envs = true →
      (addURLLoop url sites).2 = some .conflictingVariable ∧
      (addURLLoop url sites).1.get? i = some s := by
  intro sites
  induction sites with
  | nil => intro i s h _; simp [List.get?] at h
  | cons t rest ih =>
    intro i s hget hkey
    match i with
    | 0 =>
      have ht : t = s := by simpa using hget
      subst ht
      simp [addURLLoop, addURLToSite, hkey, site_eta]
    | Nat.succ j =>
      have hget2 : rest.get? j = some s := by simpa using hget
      have hg : rest[j]? = some s := by simpa using hget2
      by_cases hk : hasServerlessURL t.Envs
      · simp [addURLLoop, addURLToSite, hk, hg]
      · have hr := ih j s hget2 hkey
        have hr2 : (addURLLoop url rest).1[j]? = some s := by
          simpa using hr.2
        simp [addURLLoop, addURLToSite, hk, hr.1, hr2]

/-- When every site before the first conflicting site is conflict-free,
the injector loop keeps the appends already made to those earlier sites,
leaves the conflicting site and every later site untouched, and fails
with the conflict error. -/
theorem addURLLoop_first_conflict (url : String)
    (pre : List AppStaticSiteSpec) (s : AppStaticSiteSpec)
    (post : List AppStaticSiteSpec)
    (hpre : ∀ p ∈ pre, hasServerlessURL p.Envs = false)
    (hs : hasServerlessURL s.Envs = true) :
    addURLLoop url (pre ++ s :: post) =
      (pre.map (fun p => { p with Envs := p.Envs ++ [newEnv url] }) ++
        s :: post,
       some .conflictingVariable) := by
  induction pre with
  | nil => simp [addURLLoop, addURLToSite, hs, site_eta]
  | cons t ts ih =>
    have hkt := hpre t (by simp)
    have hrest := ih (fun p hp => hpre p (by simp [hp]))
    simp [addURLLoop, addURLToSite, hkt, hrest]

/-- C7: on a successful injector call, exactly one new entry — key
`SERVERLESS_URL`, value the endpoint fetched by the single
`auth current --web` invocation (the same value for every site), scope
build-time, type general — is appended to every site's env collection,
all prior entries keeping their original order and values. -/
theorem C7_inject_appends (nim : List String → String × Option NimError)
    (sites : List AppStaticSiteSpec)
    (h : (addServerlessURLToStaticSites nim sites).1.2 = none) :
    (addServerlessURLToStaticSites nim sites).1.1 =
      sites.map (fun s => { s with Envs := s.Envs ++
        [⟨"SERVERLESS_URL", (getServerlessURL nim).1,
          AppVariableScope_BuildTime, AppVariableType_General⟩] }) ∧
    (addServerlessURLToStaticSites nim sites).2 =
      [["auth", "current", "--web"]] := by
  cases he : (getServerlessURL nim).2 with
  | some e => simp [addServerlessURLToStaticSites, he] at h
  | none =>
    have h2 : (addURLLoop (getServerlessURL nim).1 sites).2 = none := by
      simpa [addServerlessURLToStaticSites, he] using h
    constructor
    · have hmap := addURLLoop_ok (getServerlessURL nim).1 sites h2
      simpa [addServerlessURLToStaticSites, he, newEnv] using hmap
    · simp [addServerlessURLToStaticSites, he]

/-- C7 witness: one site with one prior entry; after the call its env
collection is the prior entry followed by the injected entry. -/
theorem C7_witness :
    (addServerlessURLToStaticSites nimStub
      [⟨"s", [⟨"A", "1", "RUN_TIME", "GENERAL"⟩]⟩]).1.1 =
      [⟨"s", [⟨"A", "1", "RUN_TIME", "GENERAL"⟩,
        ⟨"SERVERLESS_URL", "", "BUILD_TIME", "GENERAL"⟩]⟩] :=
  ((C7_inject_appends nimStub
      [⟨"s", [⟨"A", "1", "RUN_TIME", "GENERAL"⟩]⟩] rfl).1).trans rfl

/-- C8: when the endpoint fetch succeeds and the site at index `i`
already has an entry keyed `SERVERLESS_URL`, the injector call fails with
the conflict error and that site's collection is returned unchanged. -/
theorem C8_conflict_unchanged (nim : List String → String × Option NimError)
    (sites : List AppStaticSiteSpec) (i : Nat) (s : AppStaticSiteSpec)
    (hfetch : (getServerlessURL nim).2 = none)
    (hget : sites.get? i = some s)
    (hkey : hasServerlessURL s.Envs = true) :
    (addServerlessURLToStaticSites nim sites).1.2 =
      some .conflictingVariable ∧
    (addServerlessURLToStaticSites nim sites).1.1.get? i = some s := by
  have hr := addURLLoop_conflict_at (getServerlessURL nim).1 sites i s
    hget hkey
  have hr2 : (addURLLoop (getServerlessURL nim).1 sites).1[i]? = some s := by
    simpa using hr.2
  constructor
  · simp [addServerlessURLToStaticSites, hfetch, hr.1]
  · simp [addServerlessURLToStaticSites, hfetch, hr2]

/-- C8 witness: a single site that already defines `SERVERLESS_URL` is
returned unchanged and the call fails with the conflict error. -/
theorem C8_witness :
    (addServerlessURLToStaticSites nimStub
      [⟨"s", [⟨"SERVERLESS_URL", "x", "RUN_TIME", "GENERAL"⟩]⟩]).1.2 =
      some .conflictingVariable ∧
    (addServerlessURLToStaticSites nimStub
      [⟨"s", [⟨"SERVERLESS_URL", "x", "RUN_TIME", "GENERAL"⟩]⟩]).1.1.get? 0 =
      some ⟨"s", [⟨"SERVERLESS_URL", "x", "RUN_TIME", "GENERAL"⟩]⟩ :=
  C8_conflict_unchanged nimStub
    [⟨"s", [⟨"SERVERLESS_URL", "x", "RUN_TIME", "GENERAL"⟩]⟩] 0
    ⟨"s", [⟨"SERVERLESS_URL", "x", "RUN_TIME", "GENERAL"⟩]⟩ rfl rfl rfl

/-- C9 counterexample: the tool's combined output carries a trailing
newline; the value stored for `SERVERLESS_URL` is that untrimmed output,
not its trimmed form — the code performs no trimming. -/
theorem C9_counterexample :
    (addServerlessURLToStaticSites nimNl [⟨"s", []⟩]).1.1 =
      [⟨"s", [⟨"SERVERLESS_URL", "http://example.com\n",
        "BUILD_TIME", "GENERAL"⟩]⟩] ∧
    specTrimmed "http://example.com\n" ≠ "http://example.com\n" :=
  ⟨rfl, by decide⟩

/-- C9 (amended): the value stored for `SERVERLESS_URL` is the external
tool's raw textual output, used verbatim with no trimming: on a
successful call, every resulting site's last env entry carries exactly
the string the tool returned for `auth current --web`. -/
theorem C9_raw_value (nim : List String → String × Option NimError)
    (sites : List AppStaticSiteSpec)
    (h : (addServerlessURLToStaticSites nim sites).1.2 = none) :
    ∀ s2 ∈ (addServerlessURLToStaticSites nim sites).1.1,
      s2.Envs.getLast? =
        some ⟨"SERVERLESS_URL", (nim ["auth", "current", "--web"]).1,
          AppVariableScope_BuildTime, AppVariableType_General⟩ := by
  intro s2 hs2
  cases he : (getServerlessURL nim).2 with
  | some e => simp [addServerlessURLToStaticSites, he] at h
  | none =>
    have h2 : (addURLLoop (getServerlessURL nim).1 sites).2 = none := by
      simpa [addServerlessURLToStaticSites, he] using h
    have hmap := addURLLoop_ok (getServerlessURL nim).1 sites h2
    rw [show (addServerlessURLToStaticSites nim sites).1.1 =
        (addURLLoop (getServerlessURL nim).1 sites).1 by
      simp [addServerlessURLToStaticSites, he], hmap] at hs2
    simp only [List.mem_map] at hs2
    obtain ⟨s0, _, hs0⟩ := hs2
    rw [← hs0]
    simp [newEnv, getServerlessURL]

/-- C9 witness: with a tool whose output ends in a newline, the stored
value is exactly that output, newline included. -/
theorem C9_witness :
    (⟨"s", [⟨"SERVERLESS_URL", "http://example.com\n",
      "BUILD_TIME", "GENERAL"⟩]⟩ : AppStaticSiteSpec).Envs.getLast? =
      some ⟨"SERVERLESS_URL", (nimNl ["auth", "current", "--web"]).1,
        AppVariableScope_BuildTime, AppVariableType_General⟩ :=
  C9_raw_value nimNl [⟨"s", []⟩] rfl
    ⟨"s", [⟨"SERVERLESS_URL", "http://example.com\n",
      "BUILD_TIME", "GENERAL"⟩]⟩ (by decide)

/-- C10: when the endpoint fetch succeeds, every site before the first
conflicting one is conflict-free, and site `s` conflicts, the injector
returns the earlier sites with their newly appended entry kept, the
conflicting site and every later site completely unchanged, and the
conflict error — partial appends are committed, not rolled back. -/
theorem C10_earlier_appends_kept
    (nim : List String → String × Option NimError)
    (pre : List AppStaticSiteSpec) (s : AppStaticSiteSpec)
    (post : List AppStaticSiteSpec)
    (hfetch : (getServerlessURL nim).2 = none)
    (hpre : ∀ p ∈ pre, hasServerlessURL p.Envs = false)
    (hs : hasServerlessURL s.Envs = true) :
    addServerlessURLToStaticSites nim (pre ++ s :: post) =
      ((pre.map (fun p => { p with Envs := p.Envs ++
          [newEnv (getServerlessURL nim).1] }) ++ s :: post,
        some .conflictingVariable),
       [["auth", "current", "--web"]]) := by
  simp [addServerlessURLToStaticSites, hfetch,
    addURLLoop_first_conflict (getServerlessURL nim).1 pre s post hpre hs]

/-- C10 witness: three sites whose second conflicts: the first keeps its
appended entry, the second and third are unchanged. -/
theorem C10_witness :
    addServerlessURLToStaticSites nimStub
      ([⟨"a", []⟩] ++
        ⟨"b", [⟨"SERVERLESS_URL", "x", "RUN_TIME", "GENERAL"⟩]⟩ ::
        [⟨"c", []⟩]) =
      (([⟨"a", [⟨"SERVERLESS_URL", "", "BUILD_TIME", "GENERAL"⟩]⟩,
         ⟨"b", [⟨"SERVERLESS_URL", "x", "RUN_TIME", "GENERAL"⟩]⟩,
         ⟨"c", []⟩],
        some .conflictingVariable),
       [["auth", "current", "--web"]]) :=
  (C10_earlier_appends_kept nimStub [⟨"a", []⟩]
    ⟨"b", [⟨"SERVERLESS_URL", "x", "RUN_TIME", "GENERAL"⟩]⟩ [⟨"c", []⟩]
    rfl (by decide) rfl).trans rfl

end Nimbella
